import Mathlib

/-
Verification of the batch correction pipeline of process_srt.py.

The embedding follows the source file:
  * process_batch_with_llm reconciles a backend response against the
    original batch lines;
  * main partitions the cue list with range(0, total, BATCH_SIZE),
    writes each reconciled batch back in place, and carries
    fixed_texts[-OVERLAP_SIZE:] as context for the next request.
The backend call itself is opaque; it is modelled by a value of type
BackendResponse: either the parsed JSON list of {id, text} objects, or
an exception (which also covers a non-JSON response body, since
json.loads raising is caught by the same try/except).
-/

/-- One subtitle cue as exposed by the pysrt collaborator: numeric index,
timing attributes and the text payload.  Only text is ever written by the
pipeline. -/
structure SubRipItem where
  index : Nat
  startTime : Nat
  endTime : Nat
  text : String
  deriving DecidableEq

/-- One element of the parsed JSON response list.  In Python each element
is a dict queried with item.get: the id key may be absent (or hold a
value that can never equal a batch position, which is observationally the
same, hence Option Nat), and the text key may be absent. -/
structure ResponseItem where
  id : Option Nat
  text : Option String
  deriving DecidableEq

/-- A backend interaction, as seen by process_batch_with_llm: either the
response body parsed by json.loads into a list of objects, or any raised
exception (network failure, timeout, non-JSON body, non-list JSON). -/
inductive BackendResponse where
  | ok (items : List ResponseItem)
  | error (msg : String)
  deriving DecidableEq

/-- Python dict lookup for
result_map = \x7bitem.get(id): item.get(text, ...) for item in results_json\x7d:
later items with the same id overwrite earlier ones, so looking up i
returns the text of the LAST item whose id is i, with the missing-text
default applied.  Returns none when no item carries id i. -/
def lookupId (items : List ResponseItem) (i : Nat) : Option String :=
  ((items.filter fun it => it.id == some i).getLast?).map fun it => it.text.getD ""

/-- The fixed_texts list built by the reconciliation loop
for i in range(len(target_texts)): use result_map[i] when present,
otherwise fall back to the original target_texts[i]. -/
def fixed_texts (target_texts : List String) (items : List ResponseItem) : List String :=
  (List.range target_texts.length).map fun i =>
    match lookupId items i with
    | some t => t
    | none => target_texts.getD i ""

/-- The diagnostic warnings printed by the reconciliation loop: one per
position whose id is absent from result_map, carrying the position and
the substituted original text. -/
def missingWarnings (target_texts : List String) (items : List ResponseItem) :
    List (Nat × String) :=
  (List.range target_texts.length).filterMap fun i =>
    match lookupId items i with
    | some _ => none
    | none => some (i, target_texts.getD i "")

/-- What one call to process_batch_with_llm produces: the reconciled
lines, the missing-id warnings it printed, and the API error it logged
(if the backend call raised). -/
structure BatchResult where
  fixed : List String
  warnings : List (Nat × String)
  apiError : Option String
  deriving DecidableEq

/-- process_batch_with_llm from process_srt.py.  context_texts and
rules_dict only enter the prompt sent to the opaque backend, so they do
not influence reconciliation; the backend outcome is the resp argument.
On an exception the function logs the error and returns the original
batch text unchanged. -/
def process_batch_with_llm (target_texts context_texts : List String)
    (rules_dict : List (String × String)) (resp : BackendResponse) : BatchResult :=
  match resp with
  | .ok items =>
      { fixed := fixed_texts target_texts items
        warnings := missingWarnings target_texts items
        apiError := none }
  | .error e =>
      { fixed := target_texts
        warnings := []
        apiError := some e }

/-- Timing and index attributes of a cue: everything except text. -/
def cueTiming (c : SubRipItem) : Nat × Nat × Nat :=
  (c.index, c.startTime, c.endTime)

/-- Helper for the write-back loop, walking the cue list with its
absolute position p.  The Python loop
for j, s in enumerate(batch): if j < len(fixed_texts): s.text = fixed_texts[j]
mutates cue i + j for j below both the batch length and len(fixed);
here batch = subs[i : i + size], so the absolute positions touched are
exactly those p with i ≤ p, p < i + size and p - i < fixed.length
(p < subs.length is implied by walking the list). -/
def writeBackFrom (i size : Nat) (fixed : List String) : Nat → List SubRipItem → List SubRipItem
  | _, [] => []
  | p, s :: rest =>
      (if i ≤ p ∧ p < i + size ∧ p - i < fixed.length then
        { s with text := fixed.getD (p - i) s.text }
      else s) :: writeBackFrom i size fixed (p + 1) rest

/-- Write one reconciled batch back into the full cue sequence, as the
loop at the end of each main iteration does. -/
def writeBack (i size : Nat) (fixed : List String) (subs : List SubRipItem) :
    List SubRipItem :=
  writeBackFrom i size fixed 0 subs

/-- Python slice xs[-n:].  For n = 0 Python returns the WHOLE list
(xs[-0:] is xs[0:]); for n > 0 it returns the last min(n, len) elements. -/
def pySliceLast (n : Nat) (xs : List String) : List String :=
  if n = 0 then xs else xs.drop (xs.length - n)

/-- Fuel-driven model of Python range(start, stop, step), specialised to
the positive step the program uses.  Fuel stop - start suffices because
each iteration advances start by step ≥ 1.  (Python raises for step = 0;
the program only ever calls this with step = BATCH_SIZE = 50.) -/
def rangeStepAux (stop step : Nat) : Nat → Nat → List Nat
  | 0, _ => []
  | fuel + 1, start =>
      if start < stop then start :: rangeStepAux stop step fuel (start + step)
      else []

/-- Python range(start, stop, step) for positive step. -/
def rangeStep (start stop step : Nat) : List Nat :=
  rangeStepAux stop step (stop - start) start

/-- The batches produced by the main loop: for each start index i of
range(0, total, size), the slice subs[i : i + size]. -/
def pyBatches {α : Type} (size : Nat) (xs : List α) : List (List α) :=
  (rangeStep 0 xs.length size).map fun i => (xs.drop i).take size

/-- Trace record of one main-loop iteration: the batch start index, the
context (previous_fixed_lines) passed into the request, and the batch
result. -/
structure IterRecord where
  startIdx : Nat
  context : List String
  result : BatchResult
  deriving DecidableEq

/-- The main loop body, recursing over the list of batch start indices.
Carries the mutable state of main: the cue list (mutated in place by the
write-back loop) and previous_fixed_lines.  k numbers the backend calls
so that responses can assign an arbitrary outcome to each call.  Returns
the final cue list, the final previous_fixed_lines, and the trace of
iterations. -/
def runBatches (rules : List (String × String)) (responses : Nat → BackendResponse)
    (size overlap : Nat) :
    List Nat → Nat → List SubRipItem → List String →
      List SubRipItem × List String × List IterRecord
  | [], _, subs, prev => (subs, prev, [])
  | i :: rest, k, subs, prev =>
      let target_texts := ((subs.drop i).take size).map fun s => s.text
      let res := process_batch_with_llm target_texts prev rules (responses k)
      let subsNext := writeBack i size res.fixed subs
      let prevNext := pySliceLast overlap res.fixed
      let out := runBatches rules responses size overlap rest (k + 1) subsNext prevNext
      (out.1, out.2.1, ⟨i, prev, res⟩ :: out.2.2)

/-- The batch loop of main: previous_fixed_lines starts empty, start
indices are range(0, total, BATCH_SIZE). -/
def mainLoop (rules : List (String × String)) (responses : Nat → BackendResponse)
    (size overlap : Nat) (subs : List SubRipItem) :
    List SubRipItem × List String × List IterRecord :=
  runBatches rules responses size overlap (rangeStep 0 subs.length size) 0 subs []

/-- BATCH_SIZE from process_srt.py. -/
def BATCH_SIZE : Nat := 50

/-- OVERLAP_SIZE from process_srt.py. -/
def OVERLAP_SIZE : Nat := 5

/-- SLEEP_TIME from process_srt.py (real time is not modelled; the sleep
has no data effect). -/
def SLEEP_TIME : Nat := 5

/-- The main loop with the programs own constants. -/
def mainRun (rules : List (String × String)) (responses : Nat → BackendResponse)
    (subs : List SubRipItem) : List SubRipItem × List String × List IterRecord :=
  mainLoop rules responses BATCH_SIZE OVERLAP_SIZE subs

/-- Python truthiness test not API_KEY: true for a missing variable and
for the empty string. -/
def pyFalsy : Option String → Bool
  | none => true
  | some s => s == ""

/-- The ValueError message raised when the API key is missing. -/
def API_KEY_ERROR : String :=
  "APIキーが見つかりません。.envファイルに GEMINI_API_KEY を設定してください。"

/-- Externally visible effects of a run, in order. -/
inductive Effect where
  | openInput
  | backendCall
  | writeOutput
  deriving DecidableEq

/-- Whole-program model: the module-level API key guard runs first (it
raises before main is even entered), then main checks that the input
file exists, then opens it, runs the batch loop and saves the output.
Returns the outcome together with the ordered list of effects
performed. -/
def runProgram (apiKey : Option String) (inputExists : Bool)
    (rules : List (String × String)) (responses : Nat → BackendResponse)
    (subs : List SubRipItem) : Except String (List SubRipItem) × List Effect :=
  if pyFalsy apiKey then (Except.error API_KEY_ERROR, [])
  else if !inputExists then (Except.error "file not found", [])
  else
    let res := mainLoop rules responses BATCH_SIZE OVERLAP_SIZE subs
    (Except.ok res.1,
      Effect.openInput ::
        ((rangeStep 0 subs.length BATCH_SIZE).map fun _ => Effect.backendCall) ++
          [Effect.writeOutput])

/-
Helper lemmas shared by several claims.
-/

theorem fixed_texts_length (t : List String) (items : List ResponseItem) :
    (fixed_texts t items).length = t.length := by
  simp [fixed_texts]

theorem process_fixed_length (t c : List String) (r : List (String × String))
    (resp : BackendResponse) :
    (process_batch_with_llm t c r resp).fixed.length = t.length := by
  cases resp <;> simp [process_batch_with_llm, fixed_texts_length]

theorem writeBackFrom_length (i size : Nat) (fixed : List String) :
    ∀ (p : Nat) (subs : List SubRipItem),
      (writeBackFrom i size fixed p subs).length = subs.length := by
  intro p subs
  induction subs generalizing p with
  | nil => rfl
  | cons s rest ih => simp [writeBackFrom, ih]

theorem writeBack_length (i size : Nat) (fixed : List String) (subs : List SubRipItem) :
    (writeBack i size fixed subs).length = subs.length :=
  writeBackFrom_length i size fixed 0 subs

theorem writeBackFrom_map_cueTiming (i size : Nat) (fixed : List String) :
    ∀ (p : Nat) (subs : List SubRipItem),
      (writeBackFrom i size fixed p subs).map cueTiming = subs.map cueTiming := by
  intro p subs
  induction subs generalizing p with
  | nil => rfl
  | cons s rest ih =>
      simp only [writeBackFrom, List.map_cons, ih]
      by_cases h : i ≤ p ∧ p < i + size ∧ p - i < fixed.length <;>
        simp [h, cueTiming]

theorem writeBack_map_cueTiming (i size : Nat) (fixed : List String)
    (subs : List SubRipItem) :
    (writeBack i size fixed subs).map cueTiming = subs.map cueTiming :=
  writeBackFrom_map_cueTiming i size fixed 0 subs

theorem runBatches_subs_length (rules : List (String × String))
    (responses : Nat → BackendResponse) (size overlap : Nat) :
    ∀ (starts : List Nat) (k : Nat) (subs : List SubRipItem) (prev : List String),
      (runBatches rules responses size overlap starts k subs prev).1.length = subs.length := by
  intro starts
  induction starts with
  | nil => intro k subs prev; rfl
  | cons i rest ih =>
      intro k subs prev
      simp only [runBatches]
      rw [ih, writeBack_length]

theorem runBatches_records_length (rules : List (String × String))
    (responses : Nat → BackendResponse) (size overlap : Nat) :
    ∀ (starts : List Nat) (k : Nat) (subs : List SubRipItem) (prev : List String),
      (runBatches rules responses size overlap starts k subs prev).2.2.length =
        starts.length := by
  intro starts
  induction starts with
  | nil => intro k subs prev; rfl
  | cons i rest ih =>
      intro k subs prev
      simp only [runBatches, List.length_cons]
      rw [ih]

theorem runBatches_map_cueTiming (rules : List (String × String))
    (responses : Nat → BackendResponse) (size overlap : Nat) :
    ∀ (starts : List Nat) (k : Nat) (subs : List SubRipItem) (prev : List String),
      (runBatches rules responses size overlap starts k subs prev).1.map cueTiming =
        subs.map cueTiming := by
  intro starts
  induction starts with
  | nil => intro k subs prev; rfl
  | cons i rest ih =>
      intro k subs prev
      simp only [runBatches]
      rw [ih, writeBack_map_cueTiming]

theorem runBatches_head_context (rules : List (String × String))
    (responses : Nat → BackendResponse) (size overlap : Nat) :
    ∀ (starts : List Nat) (k : Nat) (subs : List SubRipItem) (prev : List String)
      (r : IterRecord),
      (runBatches rules responses size overlap starts k subs prev).2.2[0]? = some r →
      r.context = prev := by
  intro starts k subs prev r h
  cases starts with
  | nil => simp [runBatches] at h
  | cons i rest =>
      simp only [runBatches, List.getElem?_cons_zero, Option.some.injEq] at h
      rw [← h]

theorem runBatches_adjacent_context (rules : List (String × String))
    (responses : Nat → BackendResponse) (size overlap : Nat) :
    ∀ (starts : List Nat) (k : Nat) (subs : List SubRipItem) (prev : List String)
      (m : Nat) (r r2 : IterRecord),
      (runBatches rules responses size overlap starts k subs prev).2.2[m]? = some r →
      (runBatches rules responses size overlap starts k subs prev).2.2[m + 1]? = some r2 →
      r2.context = pySliceLast overlap r.result.fixed := by
  intro starts
  induction starts with
  | nil =>
      intro k subs prev m r r2 h1 h2
      simp [runBatches] at h1
  | cons i rest ih =>
      intro k subs prev m r r2 h1 h2
      cases m with
      | zero =>
          simp only [runBatches, List.getElem?_cons_zero, Option.some.injEq] at h1
          simp only [runBatches, List.getElem?_cons_succ] at h2
          have := runBatches_head_context rules responses size overlap rest (k + 1) _ _ r2 h2
          rw [this, ← h1]
      | succ m2 =>
          simp only [runBatches, List.getElem?_cons_succ] at h1 h2
          exact ih (k + 1) _ _ m2 r r2 h1 h2

theorem pySliceLast_length_le (n : Nat) (hn : 0 < n) (xs : List String) :
    (pySliceLast n xs).length ≤ n := by
  unfold pySliceLast
  rw [if_neg (Nat.pos_iff_ne_zero.mp hn), List.length_drop]
  omega

theorem pySliceLast_suffix (n : Nat) (xs : List String) :
    ∃ pre, pre ++ pySliceLast n xs = xs := by
  unfold pySliceLast
  by_cases h : n = 0
  · exact ⟨[], by simp [h]⟩
  · exact ⟨xs.take (xs.length - n), by simp [h, List.take_append_drop]⟩

theorem runBatches_context_le (rules : List (String × String))
    (responses : Nat → BackendResponse) (size overlap : Nat) (hov : 0 < overlap) :
    ∀ (starts : List Nat) (k : Nat) (subs : List SubRipItem) (prev : List String),
      prev.length ≤ overlap →
      ∀ r ∈ (runBatches rules responses size overlap starts k subs prev).2.2,
        r.context.length ≤ overlap := by
  intro starts
  induction starts with
  | nil =>
      intro k subs prev hprev r hr
      simp [runBatches] at hr
  | cons i rest ih =>
      intro k subs prev hprev r hr
      simp only [runBatches, List.mem_cons] at hr
      rcases hr with hr | hr
      · rw [hr]
        exact hprev
      · exact ih (k + 1) _ _ (pySliceLast_length_le overlap hov _) r hr

theorem fixed_texts_getElem_of_lookup (targets : List String) (items : List ResponseItem)
    (i : Nat) (t : String) (hlen : i < targets.length)
    (hfound : lookupId items i = some t) :
    (fixed_texts targets items)[i]? = some t := by
  unfold fixed_texts
  rw [List.getElem?_map, List.getElem?_range hlen]
  simp [hfound]

theorem not_mem_warnings_of_lookup (targets : List String) (items : List ResponseItem)
    (i : Nat) (t u : String) (hfound : lookupId items i = some t) :
    (i, u) ∉ missingWarnings targets items := by
  unfold missingWarnings
  rw [List.mem_filterMap]
  rintro ⟨j, hj, hfj⟩
  cases hl : lookupId items j with
  | some s => simp [hl] at hfj
  | none =>
      simp only [hl, Option.some.injEq, Prod.mk.injEq] at hfj
      rw [hfj.1] at hl
      rw [hl] at hfound
      exact Option.noConfusion hfound

theorem lookup_none_of_absent (items : List ResponseItem) (i : Nat)
    (habs : ∀ it ∈ items, it.id ≠ some i) :
    lookupId items i = none := by
  unfold lookupId
  have hnil : items.filter (fun it => it.id == some i) = [] := by
    rw [List.filter_eq_nil_iff]
    intro a ha
    simpa using habs a ha
  rw [hnil]
  rfl

theorem rangeStepAux_slices_flatten {α : Type} (size : Nat) (hsz : 0 < size)
    (xs : List α) :
    ∀ (fuel start : Nat), xs.length - start ≤ fuel →
      ((rangeStepAux xs.length size fuel start).map fun j => (xs.drop j).take size).flatten =
        xs.drop start := by
  intro fuel
  induction fuel with
  | zero =>
      intro start h
      have hle : xs.length ≤ start := by omega
      simp [rangeStepAux, List.drop_eq_nil_of_le hle]
  | succ f ih =>
      intro start h
      by_cases hlt : start < xs.length
      · simp only [rangeStepAux, if_pos hlt, List.map_cons, List.flatten_cons]
        rw [ih (start + size) (by omega), ← List.drop_drop]
        exact List.take_append_drop size (xs.drop start)
      · simp only [rangeStepAux, if_neg hlt]
        simp [List.drop_eq_nil_of_le (by omega : xs.length ≤ start)]

theorem pyBatches_flatten {α : Type} (size : Nat) (hsz : 0 < size) (xs : List α) :
    (pyBatches size xs).flatten = xs := by
  unfold pyBatches rangeStep
  have h := rangeStepAux_slices_flatten size hsz xs (xs.length - 0) 0 (by omega)
  simpa using h

theorem pyBatches_length_le {α : Type} (size : Nat) (xs : List α) :
    ∀ b ∈ pyBatches size xs, b.length ≤ size := by
  intro b hb
  unfold pyBatches at hb
  rw [List.mem_map] at hb
  obtain ⟨j, _, rfl⟩ := hb
  rw [List.length_take]
  exact min_le_left _ _

theorem pyBatches_seven {α : Type} (ys : List α) (h : ys.length = 7) :
    pyBatches 5 ys = [ys.take 5, ys.drop 5] := by
  have h1 : rangeStep 0 7 5 = [0, 5] := rfl
  unfold pyBatches
  rw [h, h1]
  simp only [List.map_cons, List.map_nil, List.drop_zero]
  have h2 : (ys.drop 5).take 5 = ys.drop 5 :=
    List.take_of_length_le (by rw [List.length_drop, h]; omega)
  rw [h2]

/-
Claim theorems.
-/

/-- C1: for every input batch and every backend response (well-formed,
malformed, under-sized, or a raised exception) the reconciliation step
returns a list whose length equals the number of input lines, and the
full cue sequence written back has exactly as many lines as the original
input sequence. -/
theorem reconciled_length_always (targets ctx : List String)
    (rules rules2 : List (String × String)) (resp : BackendResponse)
    (responses : Nat → BackendResponse) (size overlap : Nat)
    (subs : List SubRipItem) :
    (process_batch_with_llm targets ctx rules resp).fixed.length = targets.length ∧
    (mainLoop rules2 responses size overlap subs).1.length = subs.length :=
  ⟨process_fixed_length targets ctx rules resp,
    runBatches_subs_length rules2 responses size overlap _ 0 subs []⟩

/-- C2: if identifier i is absent from the parsed backend response, the
reconciled line at position i equals the original input text at position
i, and a diagnostic warning carrying the missing position and the
substituted original text is emitted. -/
theorem missing_id_uses_original (targets ctx : List String)
    (rules : List (String × String)) (items : List ResponseItem) (i : Nat)
    (t : String) (hit : targets[i]? = some t)
    (habs : ∀ it ∈ items, it.id ≠ some i) :
    (process_batch_with_llm targets ctx rules (BackendResponse.ok items)).fixed[i]? =
      some t ∧
    (i, t) ∈ (process_batch_with_llm targets ctx rules (BackendResponse.ok items)).warnings := by
  have hlen : i < targets.length := by
    rcases List.getElem?_eq_some.mp hit with ⟨hl, _⟩
    exact hl
  have hlook : lookupId items i = none := lookup_none_of_absent items i habs
  constructor
  · show (fixed_texts targets items)[i]? = some t
    unfold fixed_texts
    rw [List.getElem?_map, List.getElem?_range hlen]
    simp only [Option.map_some']
    rw [hlook, List.getD_eq_getElem?_getD, hit]
    rfl
  · show (i, t) ∈ missingWarnings targets items
    unfold missingWarnings
    rw [List.mem_filterMap]
    refine ⟨i, List.mem_range.mpr hlen, ?_⟩
    simp only [hlook]
    rw [List.getD_eq_getElem?_getD, hit]
    rfl

/-- C2 witness: batch [A, B], response only carries id 0, so position 1
falls back to B and the warning (1, B) is emitted. -/
theorem missing_id_uses_original_witness :
    (process_batch_with_llm ["A", "B"] [] []
        (BackendResponse.ok [⟨some 0, some "x"⟩])).fixed[1]? = some "B" ∧
    (1, "B") ∈ (process_batch_with_llm ["A", "B"] [] []
        (BackendResponse.ok [⟨some 0, some "x"⟩])).warnings :=
  missing_id_uses_original ["A", "B"] [] [] [⟨some 0, some "x"⟩] 1 "B"
    (by decide) (by decide)

/-- C3: on any raised exception the reconciliation step returns exactly
the original text of every line of the batch and logs the error, and the
main loop still performs one iteration per batch start index, so the run
continues through every batch regardless of backend outcomes. -/
theorem backend_error_fail_open (targets ctx : List String)
    (rules rules2 : List (String × String)) (e : String)
    (responses : Nat → BackendResponse) (size overlap : Nat)
    (subs : List SubRipItem) :
    process_batch_with_llm targets ctx rules (BackendResponse.error e) =
      ⟨targets, [], some e⟩ ∧
    (mainLoop rules2 responses size overlap subs).2.2.length =
      (rangeStep 0 subs.length size).length :=
  ⟨rfl, runBatches_records_length rules2 responses size overlap _ 0 subs []⟩

/-- C4: when the parsed response carries an entry for identifier i, the
reconciled line at position i is the text the backend returned for that
identifier (the last entry with that identifier, per Python dict
semantics, with the missing-text default applied). -/
theorem present_id_uses_backend_text (targets ctx : List String)
    (rules : List (String × String)) (items : List ResponseItem) (i : Nat)
    (t : String) (hlen : i < targets.length)
    (hfound : lookupId items i = some t) :
    (process_batch_with_llm targets ctx rules (BackendResponse.ok items)).fixed[i]? =
      some t :=
  fixed_texts_getElem_of_lookup targets items i t hlen hfound

/-- C4 witness: a complete response for the batch [A] is used verbatim. -/
theorem present_id_uses_backend_text_witness :
    (process_batch_with_llm ["A"] [] []
        (BackendResponse.ok [⟨some 0, some "X"⟩])).fixed[0]? = some "X" :=
  present_id_uses_backend_text ["A"] [] [] [⟨some 0, some "X"⟩] 0 "X"
    (by decide) (by decide)

/-- C5 counterexample: for the batch [A] and a response entry that
carries identifier 0 but no text value, the reconciled line at position
0 is the empty string, not the original text A, so the claim as stated
is false. -/
theorem malformed_entry_not_original_cex :
    (process_batch_with_llm ["A"] [] []
        (BackendResponse.ok [⟨some 0, none⟩])).fixed[0]? = some "" ∧
    ("" : String) ≠ "A" := by
  constructor
  · rfl
  · decide

/-- C5 amended: if the last response entry carrying identifier i has no
text value, the reconciled line at position i is the EMPTY STRING (the
item.get default), not the original input text, and no missing-id
warning is emitted for position i. -/
theorem malformed_entry_yields_empty (targets ctx : List String)
    (rules : List (String × String)) (items : List ResponseItem) (i : Nat)
    (it0 : ResponseItem) (hlen : i < targets.length)
    (hlast : (items.filter fun it => it.id == some i).getLast? = some it0)
    (hnone : it0.text = none) :
    (process_batch_with_llm targets ctx rules (BackendResponse.ok items)).fixed[i]? =
      some "" ∧
    ∀ u, (i, u) ∉
      (process_batch_with_llm targets ctx rules (BackendResponse.ok items)).warnings := by
  have hfound : lookupId items i = some "" := by
    unfold lookupId
    rw [hlast]
    simp [hnone]
  exact ⟨fixed_texts_getElem_of_lookup targets items i "" hlen hfound,
    fun u => not_mem_warnings_of_lookup targets items i "" u hfound⟩

/-- C5 amended witness: the concrete malformed entry from the
counterexample, checked through the amended theorem. -/
theorem malformed_entry_yields_empty_witness :
    (process_batch_with_llm ["A"] [] []
        (BackendResponse.ok [⟨some 0, none⟩])).fixed[0]? = some "" ∧
    ∀ u, (0, u) ∉
      (process_batch_with_llm ["A"] [] []
        (BackendResponse.ok [⟨some 0, none⟩])).warnings :=
  malformed_entry_yields_empty ["A"] [] [] [⟨some 0, none⟩] 0 ⟨some 0, none⟩
    (by decide) (by decide) (by decide)

/-- C6: for a positive batch size, the batches are contiguous
non-overlapping slices of at most size lines whose in-order
concatenation rebuilds the whole sequence; in particular 7 lines with
size 5 give exactly the two batches [0,5) and [5,7). -/
theorem batching_partitions {α : Type} (size : Nat) (xs : List α)
    (hsz : 0 < size) :
    (pyBatches size xs).flatten = xs ∧
    (∀ b ∈ pyBatches size xs, b.length ≤ size) ∧
    (∀ ys : List α, ys.length = 7 → pyBatches 5 ys = [ys.take 5, ys.drop 5]) :=
  ⟨pyBatches_flatten size hsz xs, pyBatches_length_le size xs,
    fun ys hy => pyBatches_seven ys hy⟩

/-- C6 witness: the 7-line, size-5 scenario evaluated concretely. -/
theorem batching_partitions_witness :
    (pyBatches 5 [0, 1, 2, 3, 4, 5, 6]).flatten = [0, 1, 2, 3, 4, 5, 6] :=
  (batching_partitions 5 [0, 1, 2, 3, 4, 5, 6] (by decide)).1

/-- C7: for a positive overlap, the context passed to the first backend
request is empty, the context passed at every later iteration is exactly
the Python slice fixed[-overlap:] of the immediately preceding batch
reconciled output (in particular a suffix of it, so it is never drawn
from original uncorrected text), and no context ever exceeds overlap
entries. -/
theorem context_window_invariant (rules : List (String × String))
    (responses : Nat → BackendResponse) (size overlap : Nat)
    (subs : List SubRipItem) (hov : 0 < overlap) :
    (∀ r, (mainLoop rules responses size overlap subs).2.2[0]? = some r →
      r.context = []) ∧
    (∀ m r r2,
      (mainLoop rules responses size overlap subs).2.2[m]? = some r →
      (mainLoop rules responses size overlap subs).2.2[m + 1]? = some r2 →
      r2.context = pySliceLast overlap r.result.fixed ∧
        ∃ pre, pre ++ r2.context = r.result.fixed) ∧
    (∀ r ∈ (mainLoop rules responses size overlap subs).2.2,
      r.context.length ≤ overlap) := by
  refine ⟨?_, ?_, ?_⟩
  · intro r h
    exact runBatches_head_context rules responses size overlap _ 0 subs [] r h
  · intro m r r2 h1 h2
    have hctx :=
      runBatches_adjacent_context rules responses size overlap _ 0 subs [] m r r2 h1 h2
    refine ⟨hctx, ?_⟩
    rw [hctx]
    exact pySliceLast_suffix overlap r.result.fixed
  · exact runBatches_context_le rules responses size overlap hov _ 0 subs []
      (by simp)

/-- C7 witness: two one-line batches with overlap 1; the second request
context equals fixed[-1:] of the first batch reconciled output. -/
theorem context_window_invariant_witness :
    IterRecord.context ⟨1, ["A"], ⟨["B"], [], some "e"⟩⟩ =
      pySliceLast 1 (BatchResult.fixed ⟨["A"], [], some "e"⟩) ∧
    ∃ pre, pre ++ IterRecord.context ⟨1, ["A"], ⟨["B"], [], some "e"⟩⟩ =
      BatchResult.fixed ⟨["A"], [], some "e"⟩ :=
  (context_window_invariant [] (fun _ => BackendResponse.error "e") 1 1
      [⟨1, 0, 1, "A"⟩, ⟨2, 1, 2, "B"⟩] (by decide)).2.1 0
    ⟨0, [], ⟨["A"], [], some "e"⟩⟩ ⟨1, ["A"], ⟨["B"], [], some "e"⟩⟩
    (by decide) (by decide)

/-- C8: when the credential is falsy (unset or empty), the run fails
with the configuration ValueError and performs no effect at all: no
input file is opened, no backend call is made, nothing is written. -/
theorem api_key_guard (apiKey : Option String) (inputExists : Bool)
    (rules : List (String × String)) (responses : Nat → BackendResponse)
    (subs : List SubRipItem) (h : pyFalsy apiKey = true) :
    runProgram apiKey inputExists rules responses subs =
      (Except.error API_KEY_ERROR, []) := by
  unfold runProgram
  rw [h]
  rfl

/-- C8 witness: the guard fires for a missing key. -/
theorem api_key_guard_witness :
    runProgram none true [] (fun _ => BackendResponse.error "x") [] =
      (Except.error API_KEY_ERROR, []) :=
  api_key_guard none true [] (fun _ => BackendResponse.error "x") [] (by decide)

/-- C9: writing a reconciled batch back changes at most the text field:
the index and timing attributes of every cue are unchanged, both for a
single write-back and across the whole main loop. -/
theorem writeback_preserves_timing (i size : Nat) (fixed : List String)
    (subs : List SubRipItem) (rules : List (String × String))
    (responses : Nat → BackendResponse) (size2 overlap : Nat)
    (subs2 : List SubRipItem) :
    (writeBack i size fixed subs).map cueTiming = subs.map cueTiming ∧
    (mainLoop rules responses size2 overlap subs2).1.map cueTiming =
      subs2.map cueTiming :=
  ⟨writeBack_map_cueTiming i size fixed subs,
    runBatches_map_cueTiming rules responses size2 overlap _ 0 subs2 []⟩

/-- C10: when several response entries carry the same identifier i, the
reconciled line at position i is the text of the LAST such entry in
response order (Python dict comprehension semantics: later keys
overwrite earlier ones), and no warning is emitted for position i. -/
theorem duplicate_ids_last_wins (targets ctx : List String)
    (rules : List (String × String)) (items : List ResponseItem) (i : Nat)
    (it0 : ResponseItem) (t : String) (hlen : i < targets.length)
    (hlast : (items.filter fun it => it.id == some i).getLast? = some it0)
    (htext : it0.text = some t) :
    (process_batch_with_llm targets ctx rules (BackendResponse.ok items)).fixed[i]? =
      some t ∧
    ∀ u, (i, u) ∉
      (process_batch_with_llm targets ctx rules (BackendResponse.ok items)).warnings := by
  have hfound : lookupId items i = some t := by
    unfold lookupId
    rw [hlast]
    simp [htext]
  exact ⟨fixed_texts_getElem_of_lookup targets items i t hlen hfound,
    fun u => not_mem_warnings_of_lookup targets items i t u hfound⟩

/-- C10 witness: two entries with id 0; the later text y wins and no
warning is emitted. -/
theorem duplicate_ids_last_wins_witness :
    (process_batch_with_llm ["A"] [] []
        (BackendResponse.ok [⟨some 0, some "x"⟩, ⟨some 0, some "y"⟩])).fixed[0]? =
      some "y" ∧
    ∀ u, (0, u) ∉
      (process_batch_with_llm ["A"] [] []
        (BackendResponse.ok [⟨some 0, some "x"⟩, ⟨some 0, some "y"⟩])).warnings :=
  duplicate_ids_last_wins ["A"] [] [] [⟨some 0, some "x"⟩, ⟨some 0, some "y"⟩] 0
    ⟨some 0, some "y"⟩ "y" (by decide) (by decide) (by decide)
